import Mathlib

/-!
Verification of `pipelayer/core.py`: the period parser, the schedule-time
adjustment, the field-lookup helper, and the reconciliation/activation
engine (`Pipeline.activate`, `Pipelayer.activate`).

Modelling conventions:
* timestamps and "now" are instants on an integer time line (`Int`);
  a `timedelta` is an integer number of microseconds;
* a pipeline definition (a JSON dict compared structurally with `==`)
  is an association list `List (String × String)`;
* Python exceptions become `Except` values tagged with the exception class;
* remote AWS Data Pipeline state is an explicit record threaded through
  the calls, and every remote call is appended to a call log.
-/

namespace Pipelayer

/-! ### Python error model -/

/-- The Python exception classes that `core.py` can raise in the modelled
functions: `ValueError(msg)`, `TypeError` (from `timedelta(**kwargs)` on an
unsupported unit keyword), `NameError` (evaluation of an unbound variable,
carrying the variable name), `KeyError` (missing dict key). -/
inductive PyErr : Type
  | valueError (msg : String)
  | typeError (msg : String)
  | nameError (unbound : String)
  | keyError (key : String)
  deriving Repr, DecidableEq

/-! ### `parse_period` (core.py lines 57-73)

`PIPELINE_FREQUENCY_RE = re.compile((?P<number>\d+) (?P<unit>\w+s))` and
`re.match` matches a *prefix* of the input (it is not anchored at the end):
a maximal digit run, a single space, then a greedy word-character run that
backtracks so that its last character is a letter `s`.  The named groups
feed `timedelta(**{unit: int(number)})`, which accepts exactly the keyword
arguments `weeks, days, hours, minutes, seconds, milliseconds, microseconds`
and raises `TypeError` otherwise. -/

/-- Python regex `\w`: ASCII letters, digits and underscore
(the pattern is used on ASCII config strings). -/
def isWordChar (c : Char) : Bool :=
  c.isAlpha || c.isDigit || c = '_'

/-- Length of the prefix of `cs` kept by the greedy backtracking match of
`\w+s` against the word-character run `cs`: up to and including the *last*
letter `s`, which must have at least one character before it (`\w+` is
nonempty), so the kept prefix has length ≥ 2.  Computed from the end:
drop the characters after the last `s`; what remains is the match. -/
def lastPluralLen (cs : List Char) : Option Nat :=
  if (cs.reverse.dropWhile (fun c => c ≠ 's')).length ≥ 2
  then some (cs.reverse.dropWhile (fun c => c ≠ 's')).length
  else none

/-- Digit run value, as in Python `int` on a nonempty digit string. -/
def digitsToNat (cs : List Char) : Nat :=
  cs.foldl (fun acc c => acc * 10 + (c.toNat - 48)) 0

/-- Microseconds per unit keyword accepted by `datetime.timedelta`. -/
def timedeltaUnitMicros (unit : String) : Option Int :=
  if unit = "weeks" then some (7 * 24 * 3600 * 1000000)
  else if unit = "days" then some (24 * 3600 * 1000000)
  else if unit = "hours" then some (3600 * 1000000)
  else if unit = "minutes" then some (60 * 1000000)
  else if unit = "seconds" then some 1000000
  else if unit = "milliseconds" then some 1000
  else if unit = "microseconds" then some 1
  else none

/-- Result of matching `PIPELINE_FREQUENCY_RE` against a prefix of the
input: the `number` and `unit` groups, or `none` when `re.match` fails.
A maximal digit run, then one space, then the greedy `\w+s` match inside
the following maximal word-character run. -/
def frequencyMatch (s : String) : Option (Nat × String) :=
  if (s.toList.takeWhile Char.isDigit).isEmpty then none
  else if (s.toList.dropWhile Char.isDigit).head? = some ' ' then
    match lastPluralLen
        ((s.toList.dropWhile Char.isDigit).tail.takeWhile isWordChar) with
    | some len =>
        some (digitsToNat (s.toList.takeWhile Char.isDigit),
          String.mk
            (((s.toList.dropWhile Char.isDigit).tail.takeWhile
              isWordChar).take len))
    | none => none
  else none

/-- `parse_period` (core.py 57-73): regex-match the prefix, then build
`timedelta(**{unit: int(number)})`.  `ValueError` when the regex does not
match; `TypeError` from `timedelta` when the unit is not a duration field.
The returned duration is in microseconds. -/
def parse_period (period : String) : Except PyErr Int :=
  match frequencyMatch period with
  | none => .error (.valueError
      (String.append period " cannot be parsed as a period"))
  | some (n, unit) =>
      match timedeltaUnitMicros unit with
      | some m => .ok (n * m)
      | none => .error (.typeError (String.append unit
          " is an invalid keyword argument for this function"))

/-- Modelled from the spec (C6 compares the code against this): a string
has "the shape `<integer> <unit>`" when the *whole* string is a nonempty
digit run, exactly one space, and a pluralized word (word characters ending
in `s`, at least one character before the `s`). -/
def specHasShape (s : String) : Bool :=
  let cs := s.toList
  let digits := cs.takeWhile Char.isDigit
  let rest := cs.dropWhile Char.isDigit
  (!digits.isEmpty) && rest.head? = some ' ' &&
    rest.tail.all isWordChar && rest.tail.length ≥ 2 &&
    rest.tail.getLast? = some 's'

/-- The `<unit>` part of a string of the full shape `<integer> <unit>`:
everything after the single space. -/
def specUnit (s : String) : String :=
  String.mk ((s.toList.dropWhile Char.isDigit).tail)

/-! ### `adjusted_to_future` (core.py lines 76-94)

```
dt = datetime.strptime(timestamp, PIPELINE_DATETIME_FORMAT)
delta = parse_period(period)
now = datetime.utcnow()
while dt < now:
    dt += delta
return dt.strftime(PIPELINE_DATETIME_FORMAT)
```

String parsing/formatting is a bijection onto instants, so the loop is
modelled directly on instants.  The loop as written terminates only when
the period is positive or the timestamp is not in the past; `adjustLoopFuel`
is the loop with explicit fuel (`none` = still running after `fuel`
iterations), and `adjusted_to_future` is the same loop defined by
well-founded recursion under the hypothesis `0 < period`. -/

/-- The `while dt < now: dt += period` loop, with fuel: `none` means the
loop has not exited after `fuel` iterations. -/
def adjustLoopFuel (now period : Int) : Nat → Int → Option Int
  | 0, dt => if dt < now then none else some dt
  | fuel + 1, dt =>
      if dt < now then adjustLoopFuel now period fuel (dt + period)
      else some dt

/-- The same loop under the hypothesis `0 < period`, where it terminates. -/
def adjustLoop (now period : Int) (hp : 0 < period) (dt : Int) : Int :=
  if dt < now then adjustLoop now period hp (dt + period) else dt
termination_by (now - dt).toNat
decreasing_by omega

/-- `adjusted_to_future(timestamp, period)` (core.py 76-94) at an explicit
current instant `now`, for a positive period. -/
def adjusted_to_future (timestamp period now : Int) (hp : 0 < period) : Int :=
  adjustLoop now period hp timestamp

/-- The schedule-adjustment step of `Pipeline.__init__` (core.py 224-227):
`adjusted_to_future(values['myStartDateTime'], values['mySchedulePeriod'])`
on an already-parsed start instant, with the period string parsed by
`parse_period` and the loop run with explicit fuel.  `.ok none` means the
construction is still inside the `while` loop after `fuel` iterations. -/
def pipelineInitStart (timestamp : Int) (periodStr : String) (now : Int)
    (fuel : Nat) : Except PyErr (Option Int) :=
  match parse_period periodStr with
  | .error e => .error e
  | .ok p => .ok (adjustLoopFuel now p fuel timestamp)

/-! ### `fetch_field_value` (core.py lines 97-113)

Each entry of `aws_response['fields']` is a dict (modelled as an ordered
association list).  The loop scans entries; on an entry whose `key` item
equals `field_name` it returns the first non-`key` value, and when that
entry has no other item the loop *continues*.  If no entry returns, the
function evaluates `response` in the `ValueError` message — but `response`
is an unbound name (the parameter is `aws_response`), so a `NameError`
is raised instead. -/

/-- First value in the entry whose key is not the literal string `key`
(Python: `for (k, v) in container.items(): if k != 'key': return v`). -/
def firstNonKeyValue : List (String × String) → Option String
  | [] => none
  | (k, v) :: rest => if k ≠ "key" then some v else firstNonKeyValue rest

/-- Python `container['key']`: lookup, `KeyError` when absent. -/
def entryKey (container : List (String × String)) : Except PyErr String :=
  match container.lookup "key" with
  | some v => .ok v
  | none => .error (.keyError "key")

/-- The scan over `aws_response['fields']`; the exhausted case is the
`raise ValueError(... .format(field_name, response))` line, whose argument
evaluation hits the unbound name `response` and raises `NameError`. -/
def fetchFieldLoop (fieldName : String) :
    List (List (String × String)) → Except PyErr String
  | [] => .error (.nameError "response")
  | container :: rest =>
      match entryKey container with
      | .error e => .error e
      | .ok k =>
          if k = fieldName then
            match firstNonKeyValue container with
            | some v => .ok v
            | none => fetchFieldLoop fieldName rest
          else fetchFieldLoop fieldName rest

/-- `fetch_field_value(aws_response, field_name)` (core.py 97-113), where
`fields` is the list under the key `fields` of the response dict. -/
def fetch_field_value (fields : List (List (String × String)))
    (fieldName : String) : Except PyErr String :=
  fetchFieldLoop fieldName fields

/-! ### The remote AWS Data Pipeline service and `Pipeline.activate`
(core.py lines 200-323)

`Pipeline.__init__` sets `self.unique_id = 'unique_id'` — the literal
string, identical for every instance — and `Pipeline.create` passes
`(self.name, self.unique_id, self.description)` to `create_pipeline`, which
AWS treats idempotently per (name, uniqueId): a repeated call returns the
existing pipeline's id instead of creating a duplicate.  A freshly created
pipeline is in state `PENDING` with an empty registered definition
(`translator.api_to_definition` of the empty `get_pipeline_definition`
response).  The remote side for one pipeline identity is therefore a
single slot. -/

/-- A pipeline definition: the JSON dict `self.definition`, compared
structurally with Python `==`.  Modelled as an association list. -/
abbrev Defn := List (String × String)

/-- The remote service's state for one pipeline identity: whether a
pipeline entity is registered, its lifecycle state string (as reported by
`describe_pipelines`, e.g. `PENDING`, `SCHEDULED`) and its registered
definition (as returned by `get_pipeline_definition`). -/
structure Remote where
  present : Bool
  state : String
  defn : Defn
  deriving Repr, DecidableEq

/-- `create_pipeline(name, unique_id, description)` on the remote side:
idempotent per identity — returns the existing entity unchanged, or
registers a fresh one in state `PENDING` with the empty definition. -/
def createPipeline (r : Remote) : Remote :=
  if r.present then r else { present := true, state := "PENDING", defn := [] }

/-- `delete_pipeline` on the remote side. -/
def deleteRemote (r : Remote) : Remote :=
  { r with present := false }

/-- `put_pipeline_definition` with the desired definition's translated
objects/parameters/values: registers the desired definition. -/
def putRemote (desired : Defn) (r : Remote) : Remote :=
  { r with defn := desired }

/-- `activate_pipeline`: the entity leaves `PENDING`. -/
def activateRemote (r : Remote) : Remote :=
  { r with state := "SCHEDULED" }

/-- One remote API call issued by the engine. -/
inductive Call : Type
  | create
  | getDefinition
  | describe
  | putDefinition
  | activatePipeline
  | deletePipeline
  deriving Repr, DecidableEq

/-- Count of occurrences of call `c` in a log. -/
def countCall (c : Call) (log : List Call) : Nat :=
  log.count c

/-- Python return value of `Pipeline.activate`: `return True` on the no-op
path, the implicit `return None` after `activate_pipeline`. -/
inductive Ret : Type
  | pyTrue
  | pyNone
  deriving Repr, DecidableEq

/-- `Pipeline.activate` (core.py 301-323), with explicit fuel for the
recursive `return self.activate()` on the delete path (`none` = the
recursion has not returned within `fuel` calls):

```
pipeline_id = self.create()
existing_definition = definition_from_id(self.conn, pipeline_id)
state = state_from_id(self.conn, pipeline_id)
if existing_definition == self.definition:
    return True
elif state != 'PENDING':
    self.conn.delete_pipeline(pipeline_id)
    return self.activate()
self.conn.put_pipeline_definition(...)
self.conn.activate_pipeline(pipeline_id)
```

Returns the call log, the Python return value and the final remote state. -/
def activate (desired : Defn) : Nat → Remote → Option (List Call × Ret × Remote)
  | 0, _ => none
  | fuel + 1, r =>
      let r1 := createPipeline r
      let existingDefinition := r1.defn
      let state := r1.state
      let reads : List Call := [.create, .getDefinition, .describe]
      if existingDefinition = desired then
        some (reads, .pyTrue, r1)
      else if state ≠ "PENDING" then
        match activate desired fuel (deleteRemote r1) with
        | none => none
        | some (log, ret, rEnd) =>
            some (reads ++ [.deletePipeline] ++ log, ret, rEnd)
      else
        some (reads ++ [.putDefinition, .activatePipeline], .pyNone,
          activateRemote (putRemote desired r1))

/-! ### `Pipelayer.activate` (core.py lines 145-197) and the deployment key -/

/-- One registered `Pipeline` as `Pipelayer` sees it: its name, whether
`is_valid()` reports no validation errors, and its desired definition. -/
structure PInstance where
  name : String
  valid : Bool
  desired : Defn
  deriving Repr, DecidableEq

/-- `Pipelayer.are_pipelines_valid` (core.py 175-179):
`all([p.is_valid() for p in self.pipelines.values()])`. -/
def are_pipelines_valid (ps : List PInstance) : Bool :=
  ps.all (·.valid)

/-- An observable event of `Pipelayer.activate`: the logged error on the
fail-closed path, or the per-instance `p.activate()` call. -/
inductive BatchEvent : Type
  | logValidationError
  | activateInstance (name : String)
  deriving Repr, DecidableEq

/-- `Pipelayer.activate` (core.py 188-197): if any pipeline is invalid,
log an error and return `False` without activating anything; otherwise
call `p.activate()` for every pipeline in turn. -/
def pipelayerActivate (ps : List PInstance) : List BatchEvent :=
  if !are_pipelines_valid ps then [.logValidationError]
  else ps.map (fun p => .activateInstance p.name)

/-- The deployment key `Pipeline.__init__` stores and `Pipeline.create`
passes to `create_pipeline`: the literal string `'unique_id'`
(core.py 216, 257), whatever the instance's name, description or values. -/
def pipelineUniqueId (_name : String) (_values : List (String × String)) :
    String :=
  "unique_id"

/-! ## Theorems -/

/-! ### The adjustment loop: characterisation and termination -/

/-- When the loop condition fails the loop returns its argument. -/
theorem adjustLoop_of_not_lt (now period : Int) (hp : 0 < period) (dt : Int)
    (h : ¬ dt < now) : adjustLoop now period hp dt = dt := by
  rw [adjustLoop, if_neg h]

/-- One iteration of the loop when the condition holds. -/
theorem adjustLoop_of_lt (now period : Int) (hp : 0 < period) (dt : Int)
    (h : dt < now) :
    adjustLoop now period hp dt = adjustLoop now period hp (dt + period) := by
  conv_lhs => rw [adjustLoop]
  rw [if_pos h]

/-- The loop result is `dt + k·period` for the least `k : ℕ` with
`now ≤ dt + k·period`. -/
theorem adjustLoop_characterisation (now period : Int) (hp : 0 < period) :
    ∀ N : ℕ, ∀ dt : Int, (now - dt).toNat ≤ N →
      ∃ k : ℕ, adjustLoop now period hp dt = dt + k * period ∧
        now ≤ dt + k * period ∧
        ∀ j : ℕ, j < k → dt + j * period < now := by
  intro N
  induction N with
  | zero =>
      intro dt hdt
      have hge : ¬ dt < now := by omega
      refine ⟨0, ?_, by omega, by omega⟩
      simpa using adjustLoop_of_not_lt now period hp dt hge
  | succ N ih =>
      intro dt hdt
      by_cases h : dt < now
      · have hstep := adjustLoop_of_lt now period hp dt h
        have hmeas : (now - (dt + period)).toNat ≤ N := by omega
        obtain ⟨k, hk, hge, hmin⟩ := ih (dt + period) hmeas
        refine ⟨k + 1, ?_, ?_, ?_⟩
        · rw [hstep, hk]; push_cast; ring
        · have : dt + period + (k : Int) * period = dt + ((k : Int) + 1) * period := by
            ring
          push_cast
          omega
        · intro j hj
          match j with
          | 0 => simpa using h
          | j + 1 =>
              have hj' : j < k := by omega
              have := hmin j hj'
              push_cast at this ⊢
              nlinarith [this]
      · refine ⟨0, ?_, by omega, by omega⟩
        simpa using adjustLoop_of_not_lt now period hp dt h

/-- With positive period, sufficient fuel makes the explicit-fuel loop
return. -/
theorem adjustLoopFuel_terminates_of_pos (now period : Int) (hp : 0 < period) :
    ∀ N : ℕ, ∀ dt : Int, (now - dt).toNat ≤ N →
      ∃ r, adjustLoopFuel now period N dt = some r := by
  intro N
  induction N with
  | zero =>
      intro dt hdt
      have hge : ¬ dt < now := by omega
      exact ⟨dt, by simp [adjustLoopFuel, hge]⟩
  | succ N ih =>
      intro dt hdt
      by_cases h : dt < now
      · have hmeas : (now - (dt + period)).toNat ≤ N := by omega
        obtain ⟨r, hr⟩ := ih (dt + period) hmeas
        exact ⟨r, by simp [adjustLoopFuel, h, hr]⟩
      · exact ⟨dt, by simp [adjustLoopFuel, h]⟩

/-- With non-positive period and a past timestamp, the loop never exits,
whatever the fuel. -/
theorem adjustLoopFuel_diverges (now period : Int) (hp : period ≤ 0) :
    ∀ fuel : ℕ, ∀ dt : Int, dt < now →
      adjustLoopFuel now period fuel dt = none := by
  intro fuel
  induction fuel with
  | zero => intro dt h; simp [adjustLoopFuel, h]
  | succ fuel ih =>
      intro dt h
      have h' : dt + period < now := by omega
      simp [adjustLoopFuel, h, ih (dt + period) h']

/-- C5 (amended): for a positive period, `adjusted_to_future(t, p)` equals
`t + k·p` for the smallest non-negative integer `k` such that the result is
*on or after* the current instant (`now ≤ result`, not strictly after); in
particular if `now ≤ t` the timestamp is returned unchanged, and the result
minus `t` is always a non-negative integer multiple of `p`. -/
theorem adjusted_to_future_minimal_on_or_after
    (timestamp period now : Int) (hp : 0 < period) :
    ∃ k : ℕ, adjusted_to_future timestamp period now hp = timestamp + k * period ∧
      now ≤ timestamp + k * period ∧
      (∀ j : ℕ, j < k → timestamp + j * period < now) ∧
      (now ≤ timestamp → adjusted_to_future timestamp period now hp = timestamp) := by
  obtain ⟨k, hk, hge, hmin⟩ :=
    adjustLoop_characterisation now period hp (now - timestamp).toNat timestamp
      (le_refl _)
  refine ⟨k, hk, hge, hmin, fun hle => ?_⟩
  exact adjustLoop_of_not_lt now period hp timestamp (by omega)

/-- C5 witness: the amended theorem applied at `timestamp = 0`,
`period = 2`, `now = 5` (the loop runs three times and returns `6`). -/
theorem adjusted_to_future_minimal_on_or_after_witness :
    ∃ k : ℕ, adjusted_to_future 0 2 5 (by norm_num) = 0 + k * 2 ∧
      5 ≤ 0 + (k : Int) * 2 ∧
      (∀ j : ℕ, j < k → 0 + (j : Int) * 2 < 5) ∧
      ((5 : Int) ≤ 0 → adjusted_to_future 0 2 5 (by norm_num) = 0) :=
  adjusted_to_future_minimal_on_or_after 0 2 5 (by norm_num)

/-- C5 counterexample: with `timestamp = now` (here both `0`) and
`period = 1`, the loop guard `dt < now` fails immediately, so the returned
timestamp equals `now` and is *not* strictly after the current instant,
contradicting the claim's "strictly after". -/
theorem adjusted_to_future_not_strictly_after :
    adjusted_to_future 0 1 0 (by norm_num) = 0 ∧
    ¬ (0 < adjusted_to_future 0 1 0 (by norm_num)) := by
  have h : adjusted_to_future 0 1 0 (by norm_num) = 0 :=
    adjustLoop_of_not_lt 0 1 (by norm_num) 0 (by norm_num)
  exact ⟨h, by rw [h]; omega⟩

/-- C10: `parse_period "0 minutes"` succeeds with the zero duration;
with a zero period and a past start the `while dt < now` loop never exits
(so `Pipeline.__init__`, which performs this adjustment with no positivity
check, diverges on such a `values.json`); and the loop terminates exactly
when the period is positive or the timestamp is not before now. -/
theorem zero_period_divergence :
    parse_period "0 minutes" = .ok 0 ∧
    (∀ t now : Int, t < now → ∀ fuel, adjustLoopFuel now 0 fuel t = none) ∧
    (∀ t : Int, ∀ fuel, pipelineInitStart t "0 minutes" (t + 1) fuel = .ok none) ∧
    (∀ t now period : Int,
      (∃ fuel r, adjustLoopFuel now period fuel t = some r) ↔
        (0 < period ∨ ¬ t < now)) := by
  refine ⟨rfl, ?_, ?_, ?_⟩
  · intro t now h fuel
    exact adjustLoopFuel_diverges now 0 (le_refl 0) fuel t h
  · intro t fuel
    show Except.ok (adjustLoopFuel (t + 1) 0 fuel t) = Except.ok none
    rw [adjustLoopFuel_diverges (t + 1) 0 (le_refl 0) fuel t (by omega)]
  · intro t now period
    constructor
    · rintro ⟨fuel, r, hr⟩
      by_contra hcon
      push_neg at hcon
      obtain ⟨hple, hlt⟩ := hcon
      rw [adjustLoopFuel_diverges now period (by omega) fuel t hlt] at hr
      exact Option.noConfusion hr
    · rintro (hpos | hge)
      · obtain ⟨r, hr⟩ := adjustLoopFuel_terminates_of_pos now period hpos
          (now - t).toNat t (le_refl _)
        exact ⟨(now - t).toNat, r, hr⟩
      · refine ⟨0, t, ?_⟩
        simp [adjustLoopFuel, hge]

/-- C10 witness: the divergence conjunct at `t = 3 < now = 100` with fuel
`7`, the `Pipeline.__init__` conjunct at `t = 0`, and the termination
equivalence instantiated with a positive period. -/
theorem zero_period_divergence_witness :
    adjustLoopFuel 100 0 7 3 = none ∧
    pipelineInitStart 0 "0 minutes" 1 5 = .ok none ∧
    (∃ fuel r, adjustLoopFuel 5 2 fuel 0 = some r) :=
  ⟨zero_period_divergence.2.1 3 100 (by norm_num) 7,
   zero_period_divergence.2.2.1 0 5,
   (zero_period_divergence.2.2.2 0 5 2).mpr (Or.inl (by norm_num))⟩

/-! ### `parse_period` and the regex shape -/

/-- On a string of the full shape `<integer> <unit>`, the regex match
succeeds and its `unit` group is exactly the part after the space. -/
theorem frequencyMatch_of_shape (s : String) (h : specHasShape s = true) :
    frequencyMatch s =
      some (digitsToNat (s.toList.takeWhile Char.isDigit), specUnit s) := by
  unfold specHasShape at h
  simp only [Bool.and_eq_true, decide_eq_true_eq, Bool.not_eq_true',
    List.all_eq_true] at h
  obtain ⟨⟨⟨⟨hd, hsp⟩, hw⟩, hlen⟩, hlast⟩ := h
  have hword : (s.toList.dropWhile Char.isDigit).tail.takeWhile isWordChar =
      (s.toList.dropWhile Char.isDigit).tail :=
    List.takeWhile_eq_self_iff.mpr hw
  have hrevhead : (s.toList.dropWhile Char.isDigit).tail.reverse.head? =
      some 's' := by
    rw [List.head?_reverse]; exact hlast
  have hkept : ((s.toList.dropWhile Char.isDigit).tail.reverse.dropWhile
      (fun c => c ≠ 's')).length =
      (s.toList.dropWhile Char.isDigit).tail.length := by
    cases hrev : (s.toList.dropWhile Char.isDigit).tail.reverse with
    | nil => rw [hrev] at hrevhead; exact absurd hrevhead (by simp)
    | cons a tl =>
        rw [hrev] at hrevhead
        have ha : a = 's' := by simpa using hrevhead
        have hdw : ((a :: tl).dropWhile (fun c => c ≠ 's')) = a :: tl := by
          rw [List.dropWhile_cons, if_neg (by simp [ha])]
        rw [hdw, ← hrev, List.length_reverse]
  have hlpl : lastPluralLen
      ((s.toList.dropWhile Char.isDigit).tail.takeWhile isWordChar) =
      some (s.toList.dropWhile Char.isDigit).tail.length := by
    rw [hword]
    unfold lastPluralLen
    rw [if_pos (by rw [hkept]; exact hlen)]
    rw [hkept]
  unfold frequencyMatch
  rw [if_neg (fun hc => by rw [hd] at hc; exact Bool.noConfusion hc),
    if_pos hsp, hlpl, hword]
  simp only [List.take_length, specUnit]

/-- C6 (amended): `parse_period` returns 15 minutes, 3 hours and 1 day on
the three examples and fails on `abc`; and on every string with the *full*
shape `<integer> <unit>` it succeeds exactly when the unit is a supported
`timedelta` duration field.  (The regex is matched against a *prefix* of
the input, so strings with trailing text beyond the shape can also
succeed; the claim is weakened only on those.) -/
theorem parse_period_shape_characterisation :
    parse_period "15 minutes" = .ok (15 * 60 * 1000000) ∧
    parse_period "3 hours" = .ok (3 * 3600 * 1000000) ∧
    parse_period "1 days" = .ok (24 * 3600 * 1000000) ∧
    (parse_period "abc").isOk = false ∧
    ∀ s, specHasShape s = true →
      ((parse_period s).isOk = true ↔
        (timedeltaUnitMicros (specUnit s)).isSome = true) := by
  refine ⟨rfl, rfl, rfl, rfl, ?_⟩
  intro s hs
  unfold parse_period
  rw [frequencyMatch_of_shape s hs]
  cases hu : timedeltaUnitMicros (specUnit s) <;>
    simp [hu, Except.isOk, Except.toBool]

/-- C6 witness: the shape characterisation applied at the concrete shaped
strings 15 minutes (supported unit, parse succeeds) and 2 cats
(unsupported unit: `timedelta` rejects the keyword, parse fails). -/
theorem parse_period_shape_characterisation_witness :
    ((parse_period "15 minutes").isOk = true ↔
      (timedeltaUnitMicros (specUnit "15 minutes")).isSome = true) ∧
    ((parse_period "2 cats").isOk = true ↔
      (timedeltaUnitMicros (specUnit "2 cats")).isSome = true) :=
  ⟨parse_period_shape_characterisation.2.2.2.2 "15 minutes" rfl,
   parse_period_shape_characterisation.2.2.2.2 "2 cats" rfl⟩

/-- C6 counterexample: `1 days later` does not have the shape
`<integer> <unit>`, yet `parse_period` succeeds on it (returning 1 day),
because `re.match` only matches a prefix of the input — refuting
"fails exactly for those input strings that do not have the shape". -/
theorem parse_period_trailing_text_accepted :
    specHasShape "1 days later" = false ∧
    parse_period "1 days later" = .ok (24 * 3600 * 1000000) :=
  ⟨rfl, rfl⟩

/-! ### The reconciliation engine -/

/-- Unfolding of one run of `Pipeline.activate` at positive fuel. -/
theorem activate_succ (desired : Defn) (fuel : Nat) (r : Remote) :
    activate desired (fuel + 1) r =
      (if (createPipeline r).defn = desired then
        some ([.create, .getDefinition, .describe], .pyTrue, createPipeline r)
      else if (createPipeline r).state ≠ "PENDING" then
        match activate desired fuel (deleteRemote (createPipeline r)) with
        | none => none
        | some (log, ret, rEnd) =>
            some ([Call.create, .getDefinition, .describe, .deletePipeline]
              ++ log, ret, rEnd)
      else
        some ([.create, .getDefinition, .describe, .putDefinition,
               .activatePipeline], .pyNone,
          activateRemote (putRemote desired (createPipeline r)))) := by
  rfl

/-- A run of `Pipeline.activate` against an absent remote entity: creation
yields a fresh `PENDING` pipeline with the empty definition, so the run
either no-ops (empty desired definition) or pushes and activates — it
never reaches the delete branch. -/
theorem activate_fresh (desired : Defn) (fuel : Nat) (r : Remote)
    (hr : r.present = false) :
    activate desired (fuel + 1) r =
      if [] = desired then
        some ([.create, .getDefinition, .describe], .pyTrue,
          { present := true, state := "PENDING", defn := [] })
      else
        some ([.create, .getDefinition, .describe, .putDefinition,
               .activatePipeline], .pyNone,
          { present := true, state := "SCHEDULED", defn := desired }) := by
  have hcr : createPipeline r =
      { present := true, state := "PENDING", defn := [] } := by
    unfold createPipeline
    rw [hr]
    rfl
  rw [activate_succ, hcr]
  by_cases h : ([] : Defn) = desired
  · rw [if_pos h, if_pos h]
  · rw [if_neg h, if_neg h, if_neg (by simp)]
    rfl

/-- C1: when the remote definition fetched for the created pipeline equals
the desired one, `activate()` returns `True` after only the
create/get-definition/describe reads: zero `putDefinition`, zero
`activatePipeline` and zero `deletePipeline` calls. -/
theorem activate_noop_when_definition_matches (desired : Defn) (r : Remote)
    (h : (createPipeline r).defn = desired) (fuel : Nat) (hf : 0 < fuel) :
    ∃ log, activate desired fuel r = some (log, .pyTrue, createPipeline r) ∧
      log = [.create, .getDefinition, .describe] ∧
      countCall .putDefinition log = 0 ∧
      countCall .activatePipeline log = 0 ∧
      countCall .deletePipeline log = 0 := by
  obtain ⟨n, rfl⟩ : ∃ n, fuel = n + 1 := ⟨fuel - 1, by omega⟩
  exact ⟨_, by rw [activate_succ, if_pos h], rfl, by decide, by decide,
    by decide⟩

/-- C1 witness: a remote already holding the desired definition. -/
theorem activate_noop_when_definition_matches_witness :
    ∃ log, activate [("a", "1")] 1
        { present := true, state := "SCHEDULED", defn := [("a", "1")] } =
        some (log, .pyTrue,
          createPipeline
            { present := true, state := "SCHEDULED", defn := [("a", "1")] }) ∧
      log = [.create, .getDefinition, .describe] ∧
      countCall .putDefinition log = 0 ∧
      countCall .activatePipeline log = 0 ∧
      countCall .deletePipeline log = 0 :=
  activate_noop_when_definition_matches [("a", "1")]
    { present := true, state := "SCHEDULED", defn := [("a", "1")] }
    rfl 1 (by norm_num)

/-- C2: for any desired definition and any starting remote state,
`activate()` returns within recursion depth 2, with at most one
`deletePipeline` call and at most one `putDefinition` and one
`activatePipeline` call in total. -/
theorem activate_terminates_bounded (desired : Defn) (r : Remote) :
    ∃ log ret rEnd, activate desired 2 r = some (log, ret, rEnd) ∧
      countCall .deletePipeline log ≤ 1 ∧
      countCall .putDefinition log ≤ 1 ∧
      countCall .activatePipeline log ≤ 1 := by
  by_cases h1 : (createPipeline r).defn = desired
  · refine ⟨[.create, .getDefinition, .describe], .pyTrue, createPipeline r,
      ?_, by decide, by decide, by decide⟩
    show activate desired (1 + 1) r = _
    rw [activate_succ, if_pos h1]
  · by_cases h2 : (createPipeline r).state = "PENDING"
    · refine ⟨[.create, .getDefinition, .describe, .putDefinition,
        .activatePipeline], .pyNone,
        activateRemote (putRemote desired (createPipeline r)),
        ?_, by decide, by decide, by decide⟩
      show activate desired (1 + 1) r = _
      rw [activate_succ, if_neg h1, if_neg (by simp [h2])]
    · have hdel : (deleteRemote (createPipeline r)).present = false := rfl
      by_cases h3 : ([] : Defn) = desired
      · refine ⟨[.create, .getDefinition, .describe, .deletePipeline,
          .create, .getDefinition, .describe], .pyTrue,
          { present := true, state := "PENDING", defn := [] },
          ?_, by decide, by decide, by decide⟩
        show activate desired (1 + 1) r = _
        rw [activate_succ, if_neg h1, if_pos h2,
          activate_fresh desired 0 _ hdel, if_pos h3]
        rfl
      · refine ⟨[.create, .getDefinition, .describe, .deletePipeline,
          .create, .getDefinition, .describe, .putDefinition,
          .activatePipeline], .pyNone,
          { present := true, state := "SCHEDULED", defn := desired },
          ?_, by decide, by decide, by decide⟩
        show activate desired (1 + 1) r = _
        rw [activate_succ, if_neg h1, if_pos h2,
          activate_fresh desired 0 _ hdel, if_neg h3]
        rfl

/-- C3: remote state `PENDING` and a differing remote definition: exactly
one `putDefinition` followed by exactly one `activatePipeline`, and zero
`deletePipeline` calls. -/
theorem activate_pending_pushes_once (desired : Defn) (r : Remote)
    (hstate : (createPipeline r).state = "PENDING")
    (hdef : (createPipeline r).defn ≠ desired) (fuel : Nat) (hf : 0 < fuel) :
    ∃ log, activate desired fuel r = some (log, .pyNone,
        activateRemote (putRemote desired (createPipeline r))) ∧
      log = [.create, .getDefinition, .describe, .putDefinition,
             .activatePipeline] ∧
      countCall .putDefinition log = 1 ∧
      countCall .activatePipeline log = 1 ∧
      countCall .deletePipeline log = 0 := by
  obtain ⟨n, rfl⟩ : ∃ n, fuel = n + 1 := ⟨fuel - 1, by omega⟩
  exact ⟨_, by rw [activate_succ, if_neg hdef, if_neg (by simp [hstate])],
    rfl, by decide, by decide, by decide⟩

/-- C3 witness: a `PENDING` remote holding the empty (fresh) definition,
distinct from the desired one. -/
theorem activate_pending_pushes_once_witness :
    ∃ log, activate [("a", "1")] 1
        { present := true, state := "PENDING", defn := [] } =
        some (log, .pyNone,
          activateRemote (putRemote [("a", "1")]
            (createPipeline
              { present := true, state := "PENDING", defn := [] }))) ∧
      log = [.create, .getDefinition, .describe, .putDefinition,
             .activatePipeline] ∧
      countCall .putDefinition log = 1 ∧
      countCall .activatePipeline log = 1 ∧
      countCall .deletePipeline log = 0 :=
  activate_pending_pushes_once [("a", "1")]
    { present := true, state := "PENDING", defn := [] }
    rfl (by decide) 1 (by norm_num)

/-- C4 (amended): remote state not `PENDING` and a differing remote
definition, *provided* the desired definition differs from the empty one a
fresh entity reports: one `deletePipeline`, then the algorithm restarts
from creation and lands in the push-and-activate branch — the full call
sequence is the reads, one delete, one more create, the reads again, one
put, one activate. -/
theorem activate_stale_deletes_and_restarts (desired : Defn) (r : Remote)
    (hstate : (createPipeline r).state ≠ "PENDING")
    (hdef : (createPipeline r).defn ≠ desired)
    (hne : ([] : Defn) ≠ desired) (fuel : Nat) (hf : 2 ≤ fuel) :
    ∃ log, activate desired fuel r = some (log, .pyNone,
        { present := true, state := "SCHEDULED", defn := desired }) ∧
      log = [.create, .getDefinition, .describe, .deletePipeline,
             .create, .getDefinition, .describe, .putDefinition,
             .activatePipeline] ∧
      countCall .deletePipeline log = 1 ∧
      countCall .create log = 2 ∧
      countCall .putDefinition log = 1 ∧
      countCall .activatePipeline log = 1 := by
  obtain ⟨n, rfl⟩ : ∃ n, fuel = n + 1 + 1 := ⟨fuel - 2, by omega⟩
  have hdel : (deleteRemote (createPipeline r)).present = false := rfl
  exact ⟨_, by
      rw [activate_succ, if_neg hdef, if_pos hstate,
        activate_fresh desired n _ hdel, if_neg hne]
      rfl,
    rfl, by decide, by decide, by decide, by decide⟩

/-- C4 witness: an activated (`SCHEDULED`) remote holding a stale
definition. -/
theorem activate_stale_deletes_and_restarts_witness :
    ∃ log, activate [("a", "1")] 2
        { present := true, state := "SCHEDULED", defn := [("old", "0")] } =
        some (log, .pyNone,
          { present := true, state := "SCHEDULED", defn := [("a", "1")] }) ∧
      log = [.create, .getDefinition, .describe, .deletePipeline,
             .create, .getDefinition, .describe, .putDefinition,
             .activatePipeline] ∧
      countCall .deletePipeline log = 1 ∧
      countCall .create log = 2 ∧
      countCall .putDefinition log = 1 ∧
      countCall .activatePipeline log = 1 :=
  activate_stale_deletes_and_restarts [("a", "1")]
    { present := true, state := "SCHEDULED", defn := [("old", "0")] }
    (by decide) (by decide) (by decide) 2 (by norm_num)

/-- C4 counterexample: when the desired definition equals the empty
definition a fresh entity reports, the restart lands in the *no-op* branch
instead of push-and-activate: after the one delete there is a create but
zero `putDefinition` and zero `activatePipeline` calls, refuting the claim
as universally stated. -/
theorem activate_stale_empty_desired_noop :
    activate [] 2
        { present := true, state := "SCHEDULED", defn := [("x", "1")] } =
      some ([.create, .getDefinition, .describe, .deletePipeline,
             .create, .getDefinition, .describe], .pyTrue,
        { present := true, state := "PENDING", defn := [] }) ∧
    countCall .putDefinition
      [Call.create, .getDefinition, .describe, .deletePipeline,
       .create, .getDefinition, .describe] = 0 ∧
    countCall .activatePipeline
      [Call.create, .getDefinition, .describe, .deletePipeline,
       .create, .getDefinition, .describe] = 0 :=
  ⟨rfl, rfl, rfl⟩

/-! ### `Pipelayer.activate`: the fail-closed batch gate -/

/-- C7: if any registered pipeline fails validation, `Pipelayer.activate`
logs an error and returns without a single per-instance `activate()` call;
if all validate, it calls `activate()` for every instance in turn. -/
theorem pipelayer_activate_fail_closed (ps : List PInstance) :
    (are_pipelines_valid ps = false →
      pipelayerActivate ps = [.logValidationError]) ∧
    (are_pipelines_valid ps = true →
      pipelayerActivate ps =
        ps.map fun p => .activateInstance p.name) := by
  constructor
  · intro h
    unfold pipelayerActivate
    rw [h]
    rfl
  · intro h
    unfold pipelayerActivate
    rw [h]
    rfl

/-- C7 witness: the gate applied to a singleton failing set (error logged,
nothing activated) and to a singleton passing set (the instance is
activated). -/
theorem pipelayer_activate_fail_closed_witness :
    pipelayerActivate [⟨"p1", false, []⟩] = [.logValidationError] ∧
    pipelayerActivate [⟨"p1", true, []⟩] = [.activateInstance "p1"] :=
  ⟨(pipelayer_activate_fail_closed [⟨"p1", false, []⟩]).1 rfl,
   ((pipelayer_activate_fail_closed [⟨"p1", true, []⟩]).2 rfl).trans
     (by decide)⟩

/-! ### The deployment key -/

/-- C8 (the code violates the claim): the deployment key passed to
`create_pipeline` is the constant literal string `unique_id` for every
pipeline instance — two pipelines with different names and values receive
the identical key. -/
theorem unique_id_is_shared_constant :
    pipelineUniqueId "first-pipeline" [] =
      pipelineUniqueId "second-pipeline" [("k", "v")] ∧
    pipelineUniqueId "first-pipeline" [] = "unique_id" :=
  ⟨rfl, rfl⟩

/-! ### `fetch_field_value` -/

/-- C9 (the code violates the claim): on a response whose `fields` list
has no entry with the requested key, the `raise ValueError` line evaluates
the unbound name `response` (the parameter is `aws_response`), so the
function raises `NameError`, not the intended `ValueError`; on a response
that does contain the key it returns the first non-`key` value of that
entry. -/
theorem fetch_field_value_missing_field_nameerror :
    fetch_field_value [] "someKey" = .error (.nameError "response") ∧
    fetch_field_value [[("key", "otherKey"), ("stringValue", "v")]]
      "someKey" = .error (.nameError "response") ∧
    fetch_field_value [[("key", "someKey"), ("stringValue", "someValue")]]
      "someKey" = .ok "someValue" :=
  ⟨rfl, rfl, rfl⟩

end Pipelayer
